import Mathlib

/-!
# jquery.pjax.js: history cache, state ids and request lifecycle decisions

A shallow embedding of the parts of `src/jquery.pjax.js` that decide the
properties below: the history DOM cache (`cacheMapping`, `cacheForwardStack`,
`cacheBackStack`, `cachePush`, `cachePop`), `uniqueId`, `stripPjaxParam`,
`extractContainer`, the `beforeSend` / `error` / `success` / `complete`
callbacks built by `pjax`, the function `pjax` itself with the cancellation of
a pending request, and the `popstate` handler `onPjaxPopstate`.

State ids are JavaScript Numbers produced by `(new Date).getTime()`; they are
modelled as `Nat`. Cached values are jQuery objects (cloned container
contents); they are an arbitrary type `V`, and every such value is truthy.
jQuery, the DOM and the browser are parameters of the model. An event handler
is represented by whether it prevents the default of its event; what else a
handler may do is outside the model.
-/

namespace Pjax

/-! ## The history cache -/

/-- The object `cacheMapping`: own properties keyed by state id. Property order
is never observed by the program, so a fresh key is put in front. -/
abbrev CacheMap (V : Type) := List (Nat × V)

/-- The ids that have an entry in the object. -/
def mapKeys {V : Type} (m : CacheMap V) : List Nat := m.map Prod.fst

/-- The read `cacheMapping[id]`: `none` stands for `undefined`. -/
def mapGet {V : Type} (m : CacheMap V) (id : Nat) : Option V :=
  match m with
  | [] => none
  | (k, v) :: rest => if k = id then some v else mapGet rest id

/-- The statement `delete cacheMapping[id]`. -/
def mapDelete {V : Type} (m : CacheMap V) (id : Nat) : CacheMap V :=
  m.filter (fun e => decide (e.1 ≠ id))

/-- The assignment `cacheMapping[id] = value`. -/
def mapSet {V : Type} (m : CacheMap V) (id : Nat) (value : V) : CacheMap V :=
  (id, value) :: mapDelete m id

/-- The three module-level variables of the history DOM cache
(jquery.pjax.js lines 833-835). Arrays are lists, oldest element first. -/
structure Cache (V : Type) where
  cacheMapping : CacheMap V
  cacheForwardStack : List Nat
  cacheBackStack : List Nat
deriving DecidableEq, Repr

/-- The cache as the script initialises it: `{}`, `[]`, `[]`. -/
def Cache.empty {V : Type} : Cache V :=
  { cacheMapping := [], cacheForwardStack := [], cacheBackStack := [] }

/-- The loop `while (cacheForwardStack.length) delete cacheMapping[cacheForwardStack.shift()]`,
on the pair (forward stack, mapping). -/
def clearForwardLoop {V : Type} : List Nat → CacheMap V → List Nat × CacheMap V
  | [], m => ([], m)
  | x :: xs, m => clearForwardLoop xs (mapDelete m x)

/-- The loop `while (cacheBackStack.length > pjax.defaults.maxCacheLength)
delete cacheMapping[cacheBackStack.shift()]`, on the pair (back stack, mapping). -/
def trimBackLoop {V : Type} (maxCacheLength : Nat) : List Nat → CacheMap V → List Nat × CacheMap V
  | [], m => ([], m)
  | x :: xs, m =>
    if (x :: xs).length > maxCacheLength then trimBackLoop maxCacheLength xs (mapDelete m x)
    else (x :: xs, m)

/-- The function `cachePush(id, value)` (lines 845-857); `maxCacheLength` is the
value of `pjax.defaults.maxCacheLength` read by the second loop. -/
def cachePush {V : Type} (maxCacheLength : Nat) (c : Cache V) (id : Nat) (value : V) : Cache V :=
  let m1 := mapSet c.cacheMapping id value
  let back1 := c.cacheBackStack ++ [id]
  let r1 := clearForwardLoop c.cacheForwardStack m1
  let r2 := trimBackLoop maxCacheLength back1 r1.2
  { cacheMapping := r2.2, cacheForwardStack := r1.1, cacheBackStack := r2.1 }

/-- The tail of `cachePop`: `if (id = popStack.pop()) delete cacheMapping[id]`.
`Array.prototype.pop` removes and returns the last element (`undefined` on an
empty array); the entry is deleted only when the popped id is truthy, and the
Number 0 is falsy. Returns the pop stack and the mapping afterwards. -/
def popAndDelete {V : Type} (popStack : List Nat) (m : CacheMap V) : List Nat × CacheMap V :=
  match popStack.getLast? with
  | none => (popStack, m)
  | some popped => (popStack.dropLast, if popped ≠ 0 then mapDelete m popped else m)

/-- The function `cachePop(direction, id, value)` (lines 868-883). Every
direction other than the string `forward` takes the else branch. -/
def cachePop {V : Type} (c : Cache V) (direction : String) (id : Nat) (value : V) : Cache V :=
  let m1 := mapSet c.cacheMapping id value
  if direction = "forward" then
    let r := popAndDelete c.cacheForwardStack m1
    { cacheMapping := r.2, cacheForwardStack := r.1, cacheBackStack := c.cacheBackStack ++ [id] }
  else
    let r := popAndDelete c.cacheBackStack m1
    { cacheMapping := r.2, cacheForwardStack := c.cacheForwardStack ++ [id], cacheBackStack := r.1 }

/-- One call on the history cache. -/
inductive CacheOp (V : Type) where
  | push (id : Nat) (value : V)
  | pop (direction : String) (id : Nat) (value : V)
deriving DecidableEq, Repr

/-- Performs one call. -/
def applyOp {V : Type} (maxCacheLength : Nat) (c : Cache V) : CacheOp V → Cache V
  | .push id value => cachePush maxCacheLength c id value
  | .pop direction id value => cachePop c direction id value

/-- Performs a sequence of calls, first call first. -/
def runOps {V : Type} (maxCacheLength : Nat) (c : Cache V) (ops : List (CacheOp V)) : Cache V :=
  ops.foldl (applyOp maxCacheLength) c

/-- Performs a sequence of `cachePush` calls, first call first. -/
def runPushes {V : Type} (maxCacheLength : Nat) (c : Cache V) (calls : List (Nat × V)) : Cache V :=
  calls.foldl (fun s p => cachePush maxCacheLength s p.1 p.2) c

/-- The id argument of a call. -/
def CacheOp.id {V : Type} : CacheOp V → Nat
  | .push id _ => id
  | .pop _ id _ => id

/-- The number of `cachePop` calls made since the last `cachePush` call (or
since the start when there was none), counted on from `n`. -/
def popsSinceLastPush {V : Type} (n : Nat) (ops : List (CacheOp V)) : Nat :=
  ops.foldl (fun k op => match op with
    | .push _ _ => 0
    | .pop _ _ _ => k + 1) n

/-- The stack that `cachePop` pops: `cacheForwardStack` for the direction
`forward`, `cacheBackStack` otherwise. -/
def popStackOf {V : Type} (c : Cache V) (direction : String) : List Nat :=
  if direction = "forward" then c.cacheForwardStack else c.cacheBackStack

/-- Eviction as the specification words it: the last id of the stack, when
there is one, loses its entry in the map. -/
def evictLast {V : Type} (stack : List Nat) (m : CacheMap V) : CacheMap V :=
  match stack.getLast? with
  | none => m
  | some x => mapDelete m x

/-- The operation `pop(direction, id, snapshot)` as the specification words it:
insert `(id, snapshot)` into the map; for `forward` append `id` to the back
stack and pop and evict one id from the forward stack; for `back` append `id`
to the forward stack and pop and evict one id from the back stack. -/
def popSpec {V : Type} (c : Cache V) (direction : String) (id : Nat) (snapshot : V) : Cache V :=
  let m1 := mapSet c.cacheMapping id snapshot
  if direction = "forward" then
    { cacheMapping := evictLast c.cacheForwardStack m1,
      cacheForwardStack := c.cacheForwardStack.dropLast,
      cacheBackStack := c.cacheBackStack ++ [id] }
  else if direction = "back" then
    { cacheMapping := evictLast c.cacheBackStack m1,
      cacheForwardStack := c.cacheForwardStack ++ [id],
      cacheBackStack := c.cacheBackStack.dropLast }
  else { c with cacheMapping := m1 }

/-- The id 0 is on neither stack. -/
def Cache.NoZero {V : Type} (c : Cache V) : Prop :=
  0 ∉ c.cacheBackStack ∧ 0 ∉ c.cacheForwardStack

/-- Every key of the mapping is listed once and occurs in one of the stacks. -/
def Cache.WF {V : Type} (c : Cache V) : Prop :=
  (mapKeys c.cacheMapping).Nodup ∧
    ∀ k ∈ mapKeys c.cacheMapping, k ∈ c.cacheBackStack ∨ k ∈ c.cacheForwardStack

/-! ## State ids -/

/-- The function `uniqueId()` (lines 529-531): `(new Date).getTime()`, the
millisecond clock `now` read at the call. -/
def uniqueId (now : Nat) : Nat := now

/-! ## Regular expressions of the script, on lists of characters -/

/-- Whether `p` starts `s`, letters compared without regard to ASCII case (the
`i` flag). -/
def isPrefixCI : List Char → List Char → Bool
  | [], _ => true
  | _ :: _, [] => false
  | a :: p, b :: s => a.toLower == b.toLower && isPrefixCI p s

/-- Whether `p` starts `s` exactly. -/
def isPrefixCS : List Char → List Char → Bool
  | [], _ => true
  | _ :: _, [] => false
  | a :: p, b :: s => a == b && isPrefixCS p s

/-- The test `/<html/i.test(data)`. -/
def testHtml : List Char → Bool
  | [] => false
  | c :: cs => isPrefixCI "<html".data (c :: cs) || testHtml cs

/-- What follows the first `>` of `s`, when there is one: the part `[^>]*>`. -/
def afterFirstGt : List Char → Option (List Char)
  | [] => none
  | c :: cs => if c = '>' then some cs else afterFirstGt cs

/-- The longest prefix of `s` that ends with the closing tag `close`, when
there is one: the greedy part `([\s\S.]*)<\/head>`. -/
def takeThroughLast (close : List Char) : List Char → Option (List Char)
  | [] => none
  | c :: cs =>
    match takeThroughLast close cs with
    | some r => some (c :: r)
    | none => if isPrefixCI close (c :: cs) then some ((c :: cs).take close.length) else none

/-- A match of `/<tag[^>]*>([\s\S.]*)<\/tag>/i` that starts at the first
character of `s`: the matched text. -/
def matchTagAt (opening close s : List Char) : Option (List Char) :=
  if isPrefixCI opening s then
    match afterFirstGt (s.drop opening.length) with
    | none => none
    | some rest =>
      match takeThroughLast close rest with
      | none => none
      | some body => some (s.take (s.length - rest.length + body.length))
  else none

/-- The call `data.match(/<tag[^>]*>([\s\S.]*)<\/tag>/i)`: element 0 of the
result (the leftmost match), or `none` when `match` returns `null`. -/
def matchTag (opening close : List Char) : List Char → Option (List Char)
  | [] => none
  | c :: cs =>
    match matchTagAt opening close (c :: cs) with
    | some m => some m
    | none => matchTag opening close cs

/-- A match of `/<prefix>[^&]+&?/` that starts at the first character of `s`:
the text that follows the match. -/
def paramAt (pre s : List Char) : Option (List Char) :=
  if isPrefixCS pre s then
    match s.drop pre.length with
    | [] => none
    | c :: rest =>
      if c = '&' then none
      else
        match rest.dropWhile (fun x => x != '&') with
        | [] => some []
        | _ :: t => some t
  else none

/-- The call `s.replace(/<prefix>[^&]+&?/, rep)`: the leftmost match is replaced. -/
def replaceParam (pre rep : List Char) : List Char → List Char
  | [] => []
  | c :: cs =>
    match paramAt pre (c :: cs) with
    | some after => rep ++ after
    | none => c :: replaceParam pre rep cs

/-- The call `s.replace(/[\?&]$/, '')`. -/
def stripTrailing : List Char → List Char
  | [] => []
  | [c] => if c = '?' ∨ c = '&' then [] else [c]
  | c :: d :: cs => c :: stripTrailing (d :: cs)

/-- The function `stripPjaxParam(url)` (lines 538-543). -/
def stripPjaxParam (url : String) : String :=
  String.mk (stripTrailing (replaceParam "_pjax=".data [] (replaceParam "?_pjax=".data ['?'] url.data)))

/-! ## Response extraction -/

/-- A JavaScript exception that ends the running callback. -/
inductive JsError where
  | typeError (message : String)
  /-- A value thrown with `throw`. -/
  | thrown (message : String)
deriving DecidableEq, Repr

/-- Head metadata as `grabMeta` collects it: tag descriptors with their values. -/
abbrev Meta := List (String × String)

/-- The jQuery and DOM operations that `extractContainer` and the callbacks
use, on jQuery collections of type `J`. They belong to the library and the
browser and are parameters of the model. -/
structure Dom (J : Type) where
  /-- The expression `$(parseHTML(html))`. -/
  parse : String → J
  /-- The property `.length`. -/
  length : J → Nat
  /-- The call `a.add(b)`. -/
  add : J → J → J
  /-- The local function `findAll(elems, selector)`. -/
  findAll : J → String → J
  /-- The call `.first()`. -/
  first : J → J
  /-- The call `.last()`. -/
  last : J → J
  /-- The call `.text()`. -/
  text : J → String
  /-- The call `.contents()`. -/
  contents : J → J
  /-- The call `.attr(name)`. -/
  attr : J → String → Option String
  /-- The call `.data(name)`. -/
  data : J → String → Option String
  /-- The call `.not(selector)`. -/
  notSel : J → String → J
  /-- The call `.not(elements)`. -/
  notSet : J → J → J
  /-- The collection after `elems.find(selector).remove()` detached the matching
  descendants. -/
  removeDescendants : J → String → J
  /-- The local function `grabMeta(head)`. -/
  grabMeta : J → Meta
  /-- The call `$.trim(s)`. -/
  trim : String → String
  /-- The expression `parseURL(url).href`. -/
  href : String → String
  /-- The href of `parseURL(url)` after its `hash` was set. -/
  hrefWithHash : String → String → String

/-- The response headers that the script reads with `xhr.getResponseHeader`;
`none` stands for `null`. -/
structure Xhr where
  pjaxUrl : Option String
  pjaxVersion : Option String
  pjaxContainer : Option String
deriving DecidableEq, Repr

/-- The fields of the pjax `options` object that the callbacks read or write.
`version` is the value of `options.version` (the result of calling it when it
is a function), `id` is `none` when `options.id` is absent. -/
structure Options (J : Type) where
  type : String
  timeout : Int
  version : Option String
  id : Option Nat
  push : Bool
  replace : Bool
  fragment : Option String
  scrollTo : Option Int
  requestUrl : String
  html : Option J

/-- JavaScript truthiness of a value that is a string, `null` or `undefined`. -/
def truthy : Option String → Bool
  | some s => s != ""
  | none => false

/-- The expression `a || b` on such values. -/
def jsOr (a b : Option String) : Option String :=
  if truthy a then a else b

/-- The object that `extractContainer` returns; `none` stands for a key that
was not set. -/
structure Container (J : Type) where
  url : String
  title : Option String
  contents : Option J
  scripts : Option J
  meta : Option Meta

/-- The first part of `extractContainer` (lines 720-726): the parsed `$head`,
`$body` and `$html`. Element 0 of a `match` result that is `null` throws a
TypeError. -/
def parseResponse {J : Type} (dom : Dom J) (data : String) : Except JsError (Option J × J × J) :=
  if testHtml data.data then
    match matchTag "<head".data "</head>".data data.data with
    | none => .error (.typeError "Cannot read property 0 of null")
    | some headText =>
      match matchTag "<body".data "</body>".data data.data with
      | none => .error (.typeError "Cannot read property 0 of null")
      | some bodyText =>
        let head := dom.parse (String.mk headText)
        let body := dom.parse (String.mk bodyText)
        .ok (some head, body, dom.add head body)
  else
    let body := dom.parse data
    .ok (none, body, body)

/-- The block of `extractContainer` that cleans up the contents (lines 762-772):
the contents and the `script[src]` elements taken out of them. -/
def cleanContents {J : Type} (dom : Dom J) (contents : J) : J × J :=
  let c1 := dom.notSel contents "title"
  let c2 := dom.removeDescendants c1 "title"
  let scripts := dom.findAll c2 "script[src]"
  (dom.notSet (dom.removeDescendants c2 "script[src]") scripts, scripts)

/-- The function `extractContainer(data, xhr, options)` (lines 710-802): the
returned object and the `options` object as the call leaves it. -/
def extractContainer {J : Type} (dom : Dom J) (data : String) (xhr : Xhr) (options : Options J) :
    Except JsError (Container J × Options J) :=
  let url := stripPjaxParam ((jsOr xhr.pjaxUrl (some options.requestUrl)).getD options.requestUrl)
  match parseResponse dom data with
  | .error e => .error e
  | .ok (head, body, html) =>
    if dom.length body = 0 then
      .ok ({ url := url, title := none, contents := none, scripts := none, meta := none }, options)
    else
      let title0 : Option String := some (dom.text (dom.last (dom.findAll html "title")))
      let fragment := if truthy options.fragment then options.fragment else xhr.pjaxContainer
      let options1 := { options with html := some html, fragment := fragment }
      let found : Option J × Option String :=
        if truthy fragment then
          let frag := if fragment = some "body" then body
            else dom.first (dom.findAll body (fragment.getD ""))
          if dom.length frag ≠ 0 then
            (some (dom.contents frag),
              if truthy title0 then title0 else jsOr (dom.attr frag "title") (dom.data frag "title"))
          else (none, title0)
        else (some body, title0)
      let cleaned : Option J × Option J :=
        match found.1 with
        | some c => (some (cleanContents dom c).1, some (cleanContents dom c).2)
        | none => (none, none)
      let withHead : Option J × Option J × Option Meta :=
        match head with
        | some h =>
          if dom.length h ≠ 0 then
            let src := dom.findAll h "script"
            let js := dom.notSel src "[src]"
            let src1 := if dom.length js ≠ 0 then dom.notSet src js else src
            let contents1 := if dom.length js ≠ 0 then
                some (match cleaned.1 with
                  | some c => dom.add js c
                  | none => js)
              else cleaned.1
            let scripts1 := if dom.length src1 ≠ 0 then
                some (match cleaned.2 with
                  | some sc => dom.add src1 sc
                  | none => src1)
              else cleaned.2
            (contents1, scripts1, if dom.grabMeta h = [] then none else some (dom.grabMeta h))
          else (cleaned.1, cleaned.2, none)
        | none => (cleaned.1, cleaned.2, none)
      let title := if truthy found.2 then found.2.map dom.trim else found.2
      .ok ({ url := url, title := title, contents := withHead.1, scripts := withHead.2.1,
             meta := withHead.2.2 }, options1)

/-! ## The page and the callbacks of a request -/

/-- The object `pjax.state`, which is also what the script stores in the
history entries. A state without a `container` has the empty string there. -/
structure State where
  id : Nat
  url : String
  title : Option String
  meta : Option Meta
  container : String
  fragment : Option String
  timeout : Int
deriving DecidableEq, Repr

/-- What the script does to its surroundings, in the order it does it. -/
inductive Effect (J : Type) where
  /-- An event triggered on the container. -/
  | trigger (event : String)
  /-- The call `xhr.setRequestHeader(name, value)`. -/
  | setRequestHeader (name value : String)
  /-- The call `xhr.abort(reason)`. -/
  | abort (reason : String)
  /-- The call `window.history.replaceState(state, title, url)`. -/
  | replaceState (state : Option State) (title : Option String) (url : String)
  /-- The call `window.location.replace(url)`. -/
  | navigate (url : String)
  /-- The call `addHeadMeta(meta)`. -/
  | addHeadMeta (meta : Option Meta)
  /-- The call `executeScriptTags(scripts)`. -/
  | executeScriptTags (scripts : Option J)
  /-- The call `$(window).scrollTop(offset)` with a number. -/
  | scrollTop (offset : Int)
  /-- The scroll to the element that the hash selects, when there is one. -/
  | scrollToTarget (hash : String)
  /-- The call `pjax(options)` made by the popstate handler, which issues a
  request: the id, url and container of its options. -/
  | pjax (id : Nat) (url : String) (container : String)
  /-- The call `window.history.pushState(null, "", url)`. -/
  | pushState (url : String)
  /-- The transmission of a request for `url` by `$.ajax`. -/
  | send (url : String)
deriving DecidableEq, Repr

/-- The variables of the script and the parts of the document it touches.
`containers` lists the selectors that resolve to an element, each with the
contents of the element. -/
structure Page (J : Type) where
  state : Option State
  cache : Cache J
  defaultsVersion : Option String
  title : String
  containers : List (String × J)
  initialPop : Bool
  initialURL : String
  locationHref : String
  log : List (Effect J)
deriving DecidableEq, Repr

/-- Appends effects to the log. -/
def Page.emit {J : Type} (page : Page J) (effects : List (Effect J)) : Page J :=
  { page with log := page.log ++ effects }

/-- The contents of the element that a selector resolves to, `none` when the
jQuery object is empty. -/
def findContents {J : Type} : List (String × J) → String → Option J
  | [], _ => none
  | (sel, c) :: rest, selector => if sel = selector then some c else findContents rest selector

/-- The call `$(selector).html(contents)`. -/
def setContents {J : Type} : List (String × J) → String → J → List (String × J)
  | [], _, _ => []
  | (sel, c) :: rest, selector, contents =>
    if sel = selector then (sel, contents) :: rest else (sel, c) :: setContents rest selector contents

/-- The function `locationReplace(url)` (lines 397-400). -/
def locationReplace {J : Type} (page : Page J) (url : String) : Page J :=
  page.emit [.replaceState none (some "") "#", .navigate url]

/-- The settings object that jQuery hands to `beforeSend`. -/
structure AjaxSettings where
  type : String
  timeout : Int
  url : String
deriving DecidableEq, Repr

/-- What `beforeSend` leaves behind: the settings and options as written, the
page, the delay of the timer stored in `timeoutTimer` when one was scheduled,
and whether the request goes on (the callback did not return `false`). -/
structure Sent (J : Type) where
  settings : AjaxSettings
  options : Options J
  page : Page J
  timeoutTimer : Option Int
  proceed : Bool

/-- The callback `options.beforeSend(xhr, settings)` (lines 207-231).
`prevented event` tells whether a handler of the event prevented its default,
`selector` is `context.selector`. -/
def beforeSend {J : Type} (dom : Dom J) (prevented : String → Bool) (selector : String)
    (page : Page J) (options : Options J) (settings : AjaxSettings) : Sent J :=
  let settings1 := if settings.type ≠ "GET" then { settings with timeout := 0 } else settings
  let page1 := page.emit [.setRequestHeader "X-PJAX" selector,
    .setRequestHeader "X-PJAX-Container" selector, .trigger "pjax:beforeSend"]
  if prevented "pjax:beforeSend" then
    { settings := settings1, options := options, page := page1, timeoutTimer := none,
      proceed := false }
  else if settings1.timeout > 0 then
    { settings := { settings1 with timeout := 0 },
      options := { options with requestUrl := dom.href settings1.url },
      page := page1, timeoutTimer := some settings1.timeout, proceed := true }
  else
    { settings := settings1, options := { options with requestUrl := dom.href settings1.url },
      page := page1, timeoutTimer := none, proceed := true }

/-- The function passed to `setTimeout` in `beforeSend`: it fires
`pjax:timeout` and, unless a handler prevented it, calls `xhr.abort('timeout')`. -/
def timeoutCallback {J : Type} (prevented : String → Bool) (page : Page J) : Page J :=
  if prevented "pjax:timeout" then page.emit [.trigger "pjax:timeout"]
  else page.emit [.trigger "pjax:timeout", .abort "timeout"]

/-- The page after the delay of the timer has passed with the request still
running: the timer callback runs when a timer was scheduled, nothing runs
otherwise. -/
def timerElapsed {J : Type} (prevented : String → Bool) (sent : Sent J) : Page J :=
  match sent.timeoutTimer with
  | some _ => timeoutCallback prevented sent.page
  | none => sent.page

/-- The callback `options.error(xhr, textStatus, errorThrown)` (lines 244-251). -/
def onError {J : Type} (dom : Dom J) (prevented : String → Bool) (page : Page J)
    (options : Options J) (xhr : Xhr) (textStatus : String) : Except JsError (Page J × Options J) :=
  match extractContainer dom "" xhr options with
  | .error e => .error e
  | .ok (container, options1) =>
    let page1 := page.emit [.trigger "pjax:error"]
    if !prevented "pjax:error" && options.type == "GET" && textStatus != "abort" then
      .ok (locationReplace page1 container.url, options1)
    else .ok (page1, options1)

/-- The callback `options.success(data, status, xhr)` (lines 253-329). `now` is
the clock that `uniqueId` reads, `hash` the hash of the requested url and
`selector` is `context.selector`. The result of `fire('pjax:success', ..)` is
not used by the script. -/
def onSuccess {J : Type} (dom : Dom J) (now : Nat) (hash : String) (selector : String)
    (page : Page J) (options : Options J) (data : String) (xhr : Xhr) :
    Except JsError (Page J × Options J) :=
  let currentVersion := options.version
  let latestVersion := xhr.pjaxVersion
  match extractContainer dom data xhr options with
  | .error e => .error e
  | .ok (container, options1) =>
    if truthy currentVersion && truthy latestVersion && currentVersion != latestVersion then
      .ok (locationReplace page container.url, options1)
    else
      match container.contents with
      | none => .ok (locationReplace page container.url, options1)
      | some contents =>
        let defaultsVersion :=
          if truthy latestVersion && !truthy currentVersion then latestVersion
          else page.defaultsVersion
        let id := match options1.id with
          | some i => if i ≠ 0 then i else uniqueId now
          | none => uniqueId now
        let state : State :=
          { id := id, url := container.url, title := container.title, meta := container.meta,
            container := selector, fragment := options1.fragment, timeout := options1.timeout }
        let pushed : List (Effect J) :=
          if options1.push || options1.replace then
            [.replaceState (some state) container.title container.url]
          else []
        let scrolled : List (Effect J) :=
          match options1.scrollTo with
          | some offset => [.scrollTop offset]
          | none => []
        let state1 : State :=
          if hash ≠ "" then { state with url := dom.hrefWithHash container.url hash } else state
        let hashed : List (Effect J) :=
          if hash ≠ "" then
            [.replaceState (some state1) container.title (dom.hrefWithHash container.url hash),
              .scrollToTarget hash]
          else []
        let page1 : Page J :=
          { page with
            state := some state1
            defaultsVersion := defaultsVersion
            title := if truthy container.title then container.title.getD page.title else page.title
            containers := setContents page.containers selector contents
            log := page.log ++ pushed ++ [.addHeadMeta container.meta,
              .executeScriptTags container.scripts] ++ scrolled ++ hashed ++
              [.trigger "pjax:success"] }
        .ok (page1, options1)

/-- The event handler `onPjaxPopstate(event)` (lines 423-484); `eventState` is
`event.state`, `none` when it is `null`. -/
def onPjaxPopstate {J : Type} (page : Page J) (eventState : Option State) : Page J :=
  match eventState with
  | none => { page with initialPop := false }
  | some state =>
    if state.container = "" then { page with initialPop := false }
    else if page.initialPop && page.initialURL == state.url then page
    else
      match findContents page.containers state.container with
      | none => { locationReplace page page.locationHref with initialPop := false }
      | some current =>
        let contents := mapGet page.cache.cacheMapping state.id
        let cache1 := match page.state with
          | some cur =>
            cachePop page.cache (if cur.id < state.id then "forward" else "back") cur.id current
          | none => page.cache
        let page1 : Page J :=
          { page with cache := cache1, log := page.log ++ [.trigger "pjax:popstate"] }
        match contents with
        | some cached =>
          { page1 with
            state := some state
            title := if truthy state.title then state.title.getD page.title else page.title
            containers := setContents page.containers state.container cached
            initialPop := false
            log := page1.log ++ [.trigger "pjax:start", .addHeadMeta state.meta,
              .trigger "pjax:end"] }
        | none =>
          { page1 with
            initialPop := false
            log := page1.log ++ [.pjax state.id state.url state.container] }

/-- A small stand-in for jQuery on which the callbacks can be evaluated: a
collection is the text it was parsed from, and no selector matches. -/
def textDom : Dom String where
  parse := fun html => html
  length := fun c => c.length
  add := fun a b => a ++ b
  findAll := fun _ _ => ""
  first := fun c => c
  last := fun c => c
  text := fun c => c
  contents := fun c => c
  attr := fun _ _ => none
  data := fun _ _ => none
  notSel := fun c _ => c
  notSet := fun c _ => c
  removeDescendants := fun c _ => c
  grabMeta := fun _ => []
  trim := fun t => t
  href := fun url => url
  hrefWithHash := fun url hash => url ++ hash

/-- A page with one container `#main` showing "old", for examples. -/
def samplePage : Page String :=
  { state := some { id := 100, url := "/a", title := some "A", meta := none, container := "#main",
                    fragment := none, timeout := 3000 },
    cache := Cache.empty, defaultsVersion := none, title := "A",
    containers := [("#main", "old")], initialPop := false, initialURL := "/a",
    locationHref := "/a", log := [] }

/-- Options of a request of the given type for `/b`, for examples. -/
def sampleOptions (type : String) : Options String :=
  { type := type, timeout := 3000, version := some "v1", id := none, push := true,
    replace := false, fragment := none, scrollTo := some 0, requestUrl := "/b?_pjax=%23main",
    html := none }

/-- The number of `pjax(options)` calls recorded in a log. -/
def pjaxCalls {J : Type} : List (Effect J) → Nat
  | [] => 0
  | .pjax _ _ _ :: rest => pjaxCalls rest + 1
  | _ :: rest => pjaxCalls rest

/-- A history state of the sample page with the given id, for examples. -/
def sampleState (id : Nat) : State :=
  { id := id, url := "/earlier", title := some "Earlier", meta := none, container := "#main",
    fragment := none, timeout := 3000 }

/-! ## The function `pjax` and the life of a request -/

/-- The object `pjax.xhr` that `$.ajax` returned (a jqXHR), with the variables
of the `pjax` call that its callbacks close over. `settled` tells that jQuery
has run the callbacks of the request, which it does once. -/
structure Request (J : Type) where
  options : Options J
  selector : String
  hash : String
  timeoutTimer : Option Int
  readyState : Nat
  settled : Bool

/-- The page together with the variable `pjax.xhr`. -/
structure Session (J : Type) where
  page : Page J
  xhr : Option (Request J)

/-- The callback `options.complete(xhr, textStatus)` (lines 233-242), on the page. -/
def onComplete {J : Type} (page : Page J) : Page J :=
  page.emit [.trigger "pjax:complete", .trigger "pjax:end"]

/-- The call `s.toUpperCase()` on ASCII text. -/
def toUpperCase (s : String) : String := String.mk (s.data.map Char.toUpper)

/-- The call `$.ajax(options)` of jQuery as `pjax` uses it: the settings get the
upper-cased type, the timeout and `url`, the request url that jQuery builds
from `options.url` and `options.data`; `beforeSend` runs; when it returned
`false` the request is cancelled and the object comes back with `readyState` 0,
otherwise the request is transmitted and the object comes back with
`readyState` 1. -/
def ajax {J : Type} (dom : Dom J) (prevented : String → Bool) (selector hash : String)
    (page : Page J) (options : Options J) (url : String) : Page J × Request J :=
  let sent := beforeSend dom prevented selector page options
    { type := toUpperCase options.type, timeout := options.timeout, url := url }
  if sent.proceed then
    (sent.page.emit [.send sent.options.requestUrl],
      { options := sent.options, selector := selector, hash := hash,
        timeoutTimer := sent.timeoutTimer, readyState := 1, settled := false })
  else
    (sent.page,
      { options := sent.options, selector := selector, hash := hash, timeoutTimer := none,
        readyState := 0, settled := true })

/-- The call `xhr.abort()` on a jqXHR: a request whose callbacks have not run
yet is settled with the status text `abort`, so jQuery runs its `error`
callback with `textStatus` `abort` and then its `complete` callback; on a
settled request nothing runs. The assignment `xhr.onreadystatechange = $.noop`
before it sets a property that a jqXHR does not use. -/
def abortRequest {J : Type} (dom : Dom J) (prevented : String → Bool) (page : Page J)
    (request : Request J) : Except JsError (Page J × Request J) :=
  let page1 := page.emit [.abort "abort"]
  if request.settled then .ok (page1, request)
  else
    match onError dom prevented page1 request.options
        { pjaxUrl := none, pjaxVersion := none, pjaxContainer := none } "abort" with
    | .error e => .error e
    | .ok (page2, options2) =>
      .ok (onComplete page2,
        { request with options := options2, timeoutTimer := none, readyState := 0,
                       settled := true })

/-- The block `Cancel the current request if we're already pjaxing` of `pjax`
(lines 349-354): the page and the old request afterwards. -/
def cancelPending {J : Type} (dom : Dom J) (prevented : String → Bool) (page : Page J) :
    Option (Request J) → Except JsError (Page J × Option (Request J))
  | none => .ok (page, none)
  | some request =>
    if request.readyState < 4 then
      match abortRequest dom prevented page request with
      | .error e => .error e
      | .ok (page1, request1) => .ok (page1, some request1)
    else .ok (page, some request)

/-- How the transport of a request ends. -/
inductive Outcome where
  | success (data : String) (xhr : Xhr)
  | failure (xhr : Xhr) (textStatus : String)
deriving DecidableEq, Repr

/-- The completion of a request as jQuery delivers it: a request that is
settled already is left alone; otherwise the `success` or the `error` callback
runs, then the `complete` callback. `now` is the clock at that moment. -/
def settleRequest {J : Type} (dom : Dom J) (prevented : String → Bool) (now : Nat)
    (page : Page J) (request : Request J) (outcome : Outcome) :
    Except JsError (Page J × Request J) :=
  if request.settled then .ok (page, request)
  else
    let ran := match outcome with
      | .success data xhr =>
        onSuccess dom now request.hash request.selector page request.options data xhr
      | .failure xhr textStatus => onError dom prevented page request.options xhr textStatus
    match ran with
    | .error e => .error e
    | .ok (page1, options1) =>
      .ok (onComplete page1,
        { request with options := options1, timeoutTimer := none, readyState := 4,
                       settled := true })

/-- The block of `pjax` that initialises `pjax.state` for the initial page load
(lines 336-347). `documentMeta` is `grabMeta('head')`; `replaceState` is called
without a url, which keeps the current one. -/
def initState {J : Type} (now : Nat) (documentMeta : Meta) (selector : String) (page : Page J)
    (options : Options J) : Page J :=
  match page.state with
  | some _ => page
  | none =>
    let state : State :=
      { id := uniqueId now, url := page.locationHref, title := some page.title,
        meta := some documentMeta, container := selector, fragment := options.fragment,
        timeout := options.timeout }
    { page with
      state := some state
      log := page.log ++ [.replaceState (some state) (some page.title) page.locationHref] }

/-- The block of `pjax` that follows `$.ajax` when the request was sent and
`options.push && !options.replace` holds (lines 360-365): the current contents
of the container are cached under the id of `pjax.state` and the requested url
is pushed. -/
def pushHistory {J : Type} (maxCacheLength : Nat) (page : Page J) (request : Request J) : Page J :=
  match page.state, findContents page.containers request.selector with
  | some state, some current =>
    { page with
      cache := cachePush maxCacheLength page.cache state.id current
      log := page.log ++ [.pushState (stripPjaxParam request.options.requestUrl)] }
  | _, _ => page

/-- The function `pjax(options)` (lines 176-375). `selector` is the selector of
`findContainerFor(options.container)`, which throws when no element is found;
`url` is the request url that jQuery builds, `hash` the hash of `options.url`,
`now` the clock and `maxCacheLength` the value of
`pjax.defaults.maxCacheLength`. -/
def pjax {J : Type} (dom : Dom J) (prevented : String → Bool) (maxCacheLength now : Nat)
    (documentMeta : Meta) (url hash selector : String) (session : Session J)
    (options : Options J) : Except JsError (Session J) :=
  match findContents session.page.containers selector with
  | none => .error (.thrown ("no pjax container for " ++ selector))
  | some _ =>
    let page1 := initState now documentMeta selector session.page options
    match cancelPending dom prevented page1 session.xhr with
    | .error e => .error e
    | .ok (page2, _) =>
      let issued := ajax dom prevented selector hash page2 options url
      if issued.2.readyState > 0 then
        let page3 :=
          if issued.2.options.push && !issued.2.options.replace then
            pushHistory maxCacheLength issued.1 issued.2
          else issued.1
        .ok { page := page3.emit [.trigger "pjax:start", .trigger "pjax:send"],
              xhr := some issued.2 }
      else .ok { page := issued.1, xhr := some issued.2 }

/-- The veto function that answers `vetoed` for `event` and is `prevented`
elsewhere. -/
def withVeto (prevented : String → Bool) (event : String) (vetoed : Bool) : String → Bool :=
  fun e => if e = event then vetoed else prevented e

/-- The url of `pjax.state` after a callback, `none` when there is no state or
the callback threw. -/
def committedUrl {J : Type} (result : Except JsError (Page J × Options J)) : Option String :=
  match result with
  | .ok (page, _) => page.state.map State.url
  | .error _ => none

/-- The log of a session after `pjax`, empty when `pjax` threw. -/
def sessionLog {J : Type} (result : Except JsError (Session J)) : List (Effect J) :=
  match result with
  | .ok session => session.page.log
  | .error _ => []

/-- The history cache of a session after `pjax`, empty when `pjax` threw. -/
def sessionCache {J : Type} (result : Except JsError (Session J)) : Cache J :=
  match result with
  | .ok session => session.page.cache
  | .error _ => Cache.empty

/-- A request of the sample page for `/b` that is in flight, for examples. -/
def sampleRequest : Request String :=
  { options := sampleOptions "GET", selector := "#main", hash := "", timeoutTimer := some 3000,
    readyState := 1, settled := false }

/-! ## Facts about the mapping -/

theorem mapDelete_nil {V : Type} (id : Nat) : mapDelete ([] : CacheMap V) id = [] := rfl

theorem mapDelete_cons {V : Type} (a : Nat) (v : V) (rest : CacheMap V) (id : Nat) :
    mapDelete ((a, v) :: rest) id =
      if a = id then mapDelete rest id else (a, v) :: mapDelete rest id := by
  unfold mapDelete
  by_cases h : a = id <;> simp [List.filter_cons, h]

theorem mapKeys_mapDelete {V : Type} (m : CacheMap V) (id : Nat) :
    mapKeys (mapDelete m id) = (mapKeys m).filter (fun k => decide (k ≠ id)) := by
  induction m with
  | nil => rfl
  | cons e rest ih =>
    obtain ⟨a, v⟩ := e
    rw [mapDelete_cons]
    by_cases h : a = id
    · rw [if_pos h, ih]
      simp [mapKeys, List.filter_cons, h]
    · rw [if_neg h]
      have : mapKeys ((a, v) :: mapDelete rest id) = a :: mapKeys (mapDelete rest id) := rfl
      rw [this, ih]
      simp [mapKeys, List.filter_cons, h]

theorem mem_mapKeys_mapDelete {V : Type} (m : CacheMap V) (id k : Nat) :
    k ∈ mapKeys (mapDelete m id) ↔ k ∈ mapKeys m ∧ k ≠ id := by
  rw [mapKeys_mapDelete]
  simp [List.mem_filter]

theorem nodup_mapKeys_mapDelete {V : Type} (m : CacheMap V) (id : Nat)
    (h : (mapKeys m).Nodup) : (mapKeys (mapDelete m id)).Nodup := by
  rw [mapKeys_mapDelete]
  exact h.filter _

theorem mapKeys_mapSet {V : Type} (m : CacheMap V) (id : Nat) (value : V) :
    mapKeys (mapSet m id value) = id :: mapKeys (mapDelete m id) := rfl

theorem mem_mapKeys_mapSet {V : Type} (m : CacheMap V) (id k : Nat) (value : V) :
    k ∈ mapKeys (mapSet m id value) ↔ k = id ∨ k ∈ mapKeys m := by
  rw [mapKeys_mapSet, List.mem_cons, mem_mapKeys_mapDelete]
  by_cases h : k = id <;> simp [h]

theorem nodup_mapKeys_mapSet {V : Type} (m : CacheMap V) (id : Nat) (value : V)
    (h : (mapKeys m).Nodup) : (mapKeys (mapSet m id value)).Nodup := by
  rw [mapKeys_mapSet, List.nodup_cons]
  refine ⟨?_, nodup_mapKeys_mapDelete m id h⟩
  rw [mem_mapKeys_mapDelete]
  exact fun hk => hk.2 rfl

theorem mapGet_eq_none_iff {V : Type} (m : CacheMap V) (id : Nat) :
    mapGet m id = none ↔ id ∉ mapKeys m := by
  induction m with
  | nil => simp [mapGet, mapKeys]
  | cons e rest ih =>
    obtain ⟨k, v⟩ := e
    unfold mapGet
    by_cases h : k = id
    · simp [h, mapKeys]
    · have h2 : ¬ id = k := fun hh => h hh.symm
      simpa [h, h2, mapKeys] using ih

theorem mapGet_mapDelete {V : Type} (m : CacheMap V) (id k : Nat) :
    mapGet (mapDelete m id) k = if k = id then none else mapGet m k := by
  induction m with
  | nil => simp [mapGet, mapDelete]
  | cons e rest ih =>
    obtain ⟨a, v⟩ := e
    rw [mapDelete_cons]
    by_cases ha : a = id
    · rw [if_pos ha, ih]
      by_cases hk : k = id
      · simp [hk]
      · have hak : ¬ a = k := fun hh => hk (hh ▸ ha)
        simp [hk, mapGet, hak]
    · rw [if_neg ha]
      by_cases hk : k = id
      · subst hk
        simp [mapGet, ha, ih]
      · simp [mapGet, ih, hk]

theorem mapGet_mapSet {V : Type} (m : CacheMap V) (id k : Nat) (value : V) :
    mapGet (mapSet m id value) k = if k = id then some value else mapGet m k := by
  have hdef : mapGet (mapSet m id value) k =
      if id = k then some value else mapGet (mapDelete m id) k := rfl
  rw [hdef, mapGet_mapDelete]
  by_cases h : k = id
  · subst h; simp
  · have h2 : ¬ id = k := fun hh => h hh.symm
    simp [h, h2]

/-! ## The two loops of `cachePush` in closed form -/

theorem mem_mapKeys_foldl_mapDelete {V : Type} (xs : List Nat) (m : CacheMap V) (k : Nat) :
    k ∈ mapKeys (xs.foldl mapDelete m) ↔ k ∈ mapKeys m ∧ k ∉ xs := by
  induction xs generalizing m with
  | nil => simp
  | cons x xs ih =>
    rw [List.foldl_cons, ih, mem_mapKeys_mapDelete, List.mem_cons]
    constructor
    · rintro ⟨⟨h1, h2⟩, h3⟩
      exact ⟨h1, fun h => h.elim h2 h3⟩
    · rintro ⟨h1, h2⟩
      exact ⟨⟨h1, fun h => h2 (Or.inl h)⟩, fun h => h2 (Or.inr h)⟩

theorem nodup_mapKeys_foldl_mapDelete {V : Type} (xs : List Nat) (m : CacheMap V)
    (h : (mapKeys m).Nodup) : (mapKeys (xs.foldl mapDelete m)).Nodup := by
  induction xs generalizing m with
  | nil => exact h
  | cons x xs ih => exact ih _ (nodup_mapKeys_mapDelete m x h)

theorem mapGet_foldl_mapDelete {V : Type} (xs : List Nat) (m : CacheMap V) (k : Nat) :
    mapGet (xs.foldl mapDelete m) k = if k ∈ xs then none else mapGet m k := by
  induction xs generalizing m with
  | nil => simp
  | cons x xs ih =>
    rw [List.foldl_cons, ih, mapGet_mapDelete]
    by_cases h1 : k ∈ xs
    · simp [h1]
    · by_cases h2 : k = x <;> simp [h1, h2]

theorem clearForwardLoop_eq {V : Type} (fs : List Nat) (m : CacheMap V) :
    clearForwardLoop fs m = ([], fs.foldl mapDelete m) := by
  induction fs generalizing m with
  | nil => rfl
  | cons x xs ih => exact ih _

theorem trimBackLoop_eq {V : Type} (maxCacheLength : Nat) (bs : List Nat) (m : CacheMap V) :
    trimBackLoop maxCacheLength bs m =
      (bs.drop (bs.length - maxCacheLength),
        (bs.take (bs.length - maxCacheLength)).foldl mapDelete m) := by
  induction bs generalizing m with
  | nil => simp [trimBackLoop]
  | cons x xs ih =>
    unfold trimBackLoop
    by_cases h : (x :: xs).length > maxCacheLength
    · rw [if_pos h, ih]
      have h1 : (x :: xs).length - maxCacheLength = (xs.length - maxCacheLength) + 1 := by
        simp only [List.length_cons] at h ⊢
        omega
      rw [h1]
      rfl
    · rw [if_neg h]
      have h1 : (x :: xs).length - maxCacheLength = 0 := by omega
      rw [h1]
      rfl

theorem cachePush_eq {V : Type} (maxCacheLength : Nat) (c : Cache V) (id : Nat) (value : V) :
    cachePush maxCacheLength c id value =
      { cacheMapping :=
          ((c.cacheBackStack ++ [id]).take ((c.cacheBackStack ++ [id]).length - maxCacheLength)).foldl
            mapDelete (c.cacheForwardStack.foldl mapDelete (mapSet c.cacheMapping id value)),
        cacheForwardStack := [],
        cacheBackStack :=
          (c.cacheBackStack ++ [id]).drop ((c.cacheBackStack ++ [id]).length - maxCacheLength) } := by
  unfold cachePush
  simp only [clearForwardLoop_eq, trimBackLoop_eq]

theorem cachePush_forward {V : Type} (maxCacheLength : Nat) (c : Cache V) (id : Nat) (value : V) :
    (cachePush maxCacheLength c id value).cacheForwardStack = [] := by
  rw [cachePush_eq]

theorem cachePush_back_length {V : Type} (maxCacheLength : Nat) (c : Cache V) (id : Nat)
    (value : V) : (cachePush maxCacheLength c id value).cacheBackStack.length ≤ maxCacheLength := by
  rw [cachePush_eq]
  simp only [List.length_drop]
  omega

/-! ## The invariant of the cache -/

theorem WF_empty {V : Type} : (Cache.empty : Cache V).WF := by
  refine ⟨List.nodup_nil, ?_⟩
  intro k hk
  cases hk

theorem WF_length_le {V : Type} (c : Cache V) (h : c.WF) :
    c.cacheMapping.length ≤ c.cacheBackStack.length + c.cacheForwardStack.length := by
  have hsub : mapKeys c.cacheMapping ⊆ c.cacheBackStack ++ c.cacheForwardStack := by
    intro k hk
    exact List.mem_append.mpr (h.2 k hk)
  have hle := (List.subperm_of_subset h.1 hsub).length_le
  simpa [mapKeys] using hle

theorem WF_cachePush {V : Type} (maxCacheLength : Nat) (c : Cache V) (id : Nat) (value : V)
    (h : c.WF) : (cachePush maxCacheLength c id value).WF := by
  rw [cachePush_eq]
  refine ⟨?_, ?_⟩
  · exact nodup_mapKeys_foldl_mapDelete _ _
      (nodup_mapKeys_foldl_mapDelete _ _ (nodup_mapKeys_mapSet _ _ _ h.1))
  · intro k hk
    left
    simp only at hk ⊢
    rw [mem_mapKeys_foldl_mapDelete, mem_mapKeys_foldl_mapDelete, mem_mapKeys_mapSet] at hk
    obtain ⟨⟨hk1, hk2⟩, hk3⟩ := hk
    have hmem : k ∈ c.cacheBackStack ++ [id] := by
      rcases hk1 with rfl | hk1
      · simp
      · rcases h.2 k hk1 with hb | hf
        · exact List.mem_append_left _ hb
        · exact absurd hf hk2
    rw [← List.take_append_drop ((c.cacheBackStack ++ [id]).length - maxCacheLength)
      (c.cacheBackStack ++ [id])] at hmem
    rcases List.mem_append.mp hmem with ht | hd
    · exact absurd ht hk3
    · exact hd

theorem WF_runPushes {V : Type} (maxCacheLength : Nat) (c : Cache V) (calls : List (Nat × V))
    (h : c.WF) : (runPushes maxCacheLength c calls).WF := by
  induction calls generalizing c with
  | nil => exact h
  | cons p rest ih => exact ih _ (WF_cachePush maxCacheLength c p.1 p.2 h)

/-! ## Claims about the history cache -/

/-- C1: starting from the empty history cache, after every sequence of `cachePush`
calls (any ids, any snapshots, any `maxCacheLength`), immediately after a further
`cachePush` call `cacheForwardStack` is empty and `cacheMapping` has at most
`maxCacheLength` entries. -/
theorem cachePush_forward_empty_and_bounded {V : Type} (maxCacheLength : Nat)
    (calls : List (Nat × V)) (id : Nat) (value : V) :
    (cachePush maxCacheLength (runPushes maxCacheLength Cache.empty calls) id value).cacheForwardStack
        = [] ∧
      (cachePush maxCacheLength (runPushes maxCacheLength Cache.empty calls) id
        value).cacheMapping.length ≤ maxCacheLength := by
  have hwf := WF_cachePush maxCacheLength _ id value
    (WF_runPushes maxCacheLength Cache.empty calls WF_empty)
  have hlen := WF_length_le _ hwf
  have hf := cachePush_forward maxCacheLength (runPushes maxCacheLength Cache.empty calls) id value
  have hb := cachePush_back_length maxCacheLength
    (runPushes maxCacheLength Cache.empty calls) id value
  refine ⟨hf, ?_⟩
  rw [hf] at hlen
  simp only [List.length_nil, Nat.add_zero] at hlen
  exact le_trans hlen hb

/-- C2, as stated, fails: after `cachePop('back', 5, "A")` on the empty cache the
id 5 is on the forward stack, and `cachePush(5, "B")` with the default
`maxCacheLength` 20 stores "B" under 5 and deletes it again while clearing the
forward stack, so the lookup `cacheMapping[5]` yields `undefined`. -/
theorem cachePush_lookup_lost :
    mapGet (cachePush 20 (runOps 20 (Cache.empty : Cache String) [CacheOp.pop "back" 5 "A"]) 5
        "B").cacheMapping 5 = none ∧
      mapGet (cachePush 20 (runOps 20 (Cache.empty : Cache String) [CacheOp.pop "back" 5 "A"]) 5
        "B").cacheMapping 5 ≠ some "B" := by
  decide

/-- C2, amended: for every cache state, every snapshot, `maxCacheLength >= 1`
and every id that is not on `cacheForwardStack` and is not one of the ids the
call trims from the front of `cacheBackStack` (its first
`cacheBackStack.length + 1 - maxCacheLength` ids), so in particular for every
id that is on neither stack: immediately after `cachePush(id, value)` the lookup
`cacheMapping[id]` yields exactly `value`. -/
theorem cachePush_lookup {V : Type} (maxCacheLength : Nat) (c : Cache V) (id : Nat) (value : V)
    (hmax : 1 ≤ maxCacheLength) (hfwd : id ∉ c.cacheForwardStack)
    (hback : id ∉ c.cacheBackStack.take (c.cacheBackStack.length + 1 - maxCacheLength)) :
    mapGet (cachePush maxCacheLength c id value).cacheMapping id = some value := by
  rw [cachePush_eq]
  simp only
  rw [mapGet_foldl_mapDelete, mapGet_foldl_mapDelete, mapGet_mapSet]
  have hlen : (c.cacheBackStack ++ [id]).length - maxCacheLength ≤ c.cacheBackStack.length := by
    simp only [List.length_append, List.length_singleton]
    omega
  rw [List.take_append_of_le_length hlen]
  simp only [List.length_append, List.length_singleton]
  simp [hfwd, hback]

/-- Witness of `cachePush_lookup`: a push of the fresh id 7 after a visit of 5. -/
theorem cachePush_lookup_witness :
    (1 ≤ 20 ∧
        7 ∉ (runOps 20 (Cache.empty : Cache String)
          [CacheOp.pop "back" 5 "A"]).cacheForwardStack) ∧
      mapGet (cachePush 20 (runOps 20 (Cache.empty : Cache String) [CacheOp.pop "back" 5 "A"]) 7
        "B").cacheMapping 7 = some "B" :=
  ⟨by decide,
    cachePush_lookup 20 (runOps 20 (Cache.empty : Cache String) [CacheOp.pop "back" 5 "A"]) 7 "B"
      (by decide) (by decide) (by decide)⟩

/-- C3, as stated, fails: with the id 0 last on `cacheForwardStack`,
`cachePop('forward', 1, "B")` removes 0 from the stack and keeps its entry in
`cacheMapping`, where the specified pop evicts it. -/
theorem cachePop_keeps_entry_of_zero :
    cachePop (runOps 20 (Cache.empty : Cache String) [CacheOp.pop "back" 0 "A"]) "forward" 1 "B" ≠
        popSpec (runOps 20 (Cache.empty : Cache String) [CacheOp.pop "back" 0 "A"]) "forward" 1 "B" ∧
      mapGet (cachePop (runOps 20 (Cache.empty : Cache String) [CacheOp.pop "back" 0 "A"])
        "forward" 1 "B").cacheMapping 0 = some "A" := by
  decide

/-- C3, amended: for every cache state, id and value, for the directions
`forward` and `back`, and provided the id that the call removes from the stack
it pops is not 0, `cachePop` does what the specified pop does: it stores
`value` under `id`, appends `id` to the one stack, removes the last id of the
other and deletes that id's entry, and changes nothing else. -/
theorem cachePop_eq_popSpec {V : Type} (c : Cache V) (direction : String) (id : Nat) (value : V)
    (hd : direction = "forward" ∨ direction = "back")
    (hz : (popStackOf c direction).getLast? ≠ some 0) :
    cachePop c direction id value = popSpec c direction id value := by
  have hback : ("back" : String) ≠ "forward" := by decide
  rcases hd with rfl | rfl
  · simp only [popStackOf, if_true] at hz
    simp only [cachePop, popSpec, popAndDelete, evictLast, if_true]
    cases hl : c.cacheForwardStack.getLast? with
    | none => simp [List.getLast?_eq_none_iff.mp hl]
    | some x =>
      have hx : x ≠ 0 := fun h0 => hz (by rw [hl, h0])
      simp [hx]
  · simp only [popStackOf, if_neg hback] at hz
    simp only [cachePop, popSpec, popAndDelete, evictLast, if_neg hback, if_true]
    cases hl : c.cacheBackStack.getLast? with
    | none => simp [List.getLast?_eq_none_iff.mp hl]
    | some x =>
      have hx : x ≠ 0 := fun h0 => hz (by rw [hl, h0])
      simp [hx]

/-- Witness of `cachePop_eq_popSpec`: a forward pop that evicts the id 5. -/
theorem cachePop_eq_popSpec_witness :
    ((("forward" : String) = "forward" ∨ ("forward" : String) = "back") ∧
        (popStackOf (runOps 20 (Cache.empty : Cache String) [CacheOp.pop "back" 5 "A"])
          "forward").getLast? ≠ some 0) ∧
      cachePop (runOps 20 (Cache.empty : Cache String) [CacheOp.pop "back" 5 "A"]) "forward" 7 "B" =
        { cacheMapping := [(7, "B")], cacheForwardStack := [], cacheBackStack := [7] } :=
  ⟨by decide,
    (cachePop_eq_popSpec (runOps 20 (Cache.empty : Cache String) [CacheOp.pop "back" 5 "A"])
      "forward" 7 "B" (Or.inl rfl) (by decide)).trans (by decide)⟩

/-! ## Stack lengths and map size along sequences of calls -/

theorem popAndDelete_fst {V : Type} (ps : List Nat) (m : CacheMap V) :
    (popAndDelete ps m).1 = ps.dropLast := by
  unfold popAndDelete
  cases hl : ps.getLast? with
  | none => simp [List.getLast?_eq_none_iff.mp hl]
  | some x => rfl

theorem cachePop_forward_stacks {V : Type} (c : Cache V) (id : Nat) (value : V) :
    (cachePop c "forward" id value).cacheForwardStack = c.cacheForwardStack.dropLast ∧
      (cachePop c "forward" id value).cacheBackStack = c.cacheBackStack ++ [id] := by
  simp [cachePop, popAndDelete_fst]

theorem cachePop_other_stacks {V : Type} (c : Cache V) (direction : String) (id : Nat) (value : V)
    (hd : direction ≠ "forward") :
    (cachePop c direction id value).cacheForwardStack = c.cacheForwardStack ++ [id] ∧
      (cachePop c direction id value).cacheBackStack = c.cacheBackStack.dropLast := by
  simp [cachePop, popAndDelete_fst, hd]

theorem cachePop_total_length {V : Type} (c : Cache V) (direction : String) (id : Nat)
    (value : V) :
    (cachePop c direction id value).cacheBackStack.length +
        (cachePop c direction id value).cacheForwardStack.length ≤
      c.cacheBackStack.length + c.cacheForwardStack.length + 1 := by
  by_cases hd : direction = "forward"
  · subst hd
    obtain ⟨h1, h2⟩ := cachePop_forward_stacks c id value
    rw [h1, h2]
    simp only [List.length_append, List.length_singleton, List.length_dropLast]
    omega
  · obtain ⟨h1, h2⟩ := cachePop_other_stacks c direction id value hd
    rw [h1, h2]
    simp only [List.length_append, List.length_singleton, List.length_dropLast]
    omega

theorem runOps_total_length {V : Type} (maxCacheLength : Nat) (ops : List (CacheOp V))
    (c : Cache V) (n : Nat)
    (h : c.cacheBackStack.length + c.cacheForwardStack.length ≤ maxCacheLength + n) :
    (runOps maxCacheLength c ops).cacheBackStack.length +
        (runOps maxCacheLength c ops).cacheForwardStack.length ≤
      maxCacheLength + popsSinceLastPush n ops := by
  induction ops generalizing c n with
  | nil => exact h
  | cons op rest ih =>
    cases op with
    | push id value =>
      refine ih (cachePush maxCacheLength c id value) 0 ?_
      have h1 := cachePush_back_length maxCacheLength c id value
      rw [cachePush_forward]
      simpa using h1
    | pop direction id value =>
      refine ih (cachePop c direction id value) (n + 1) ?_
      have h1 := cachePop_total_length c direction id value
      omega

theorem mem_of_mem_dropLast {x : Nat} {l : List Nat} (h : x ∈ l.dropLast) : x ∈ l :=
  (List.dropLast_sublist l).subset h

theorem mem_dropLast_of_ne_getLast {x y : Nat} {l : List Nat} (hl : l.getLast? = some y)
    (hx : x ∈ l) (hne : x ≠ y) : x ∈ l.dropLast := by
  have hnil : l ≠ [] := by
    intro h0
    rw [h0] at hl
    cases hl
  have hlast : l.getLast hnil = y := by
    rw [List.getLast?_eq_getLast l hnil] at hl
    exact Option.some.inj hl
  have hsplit := List.dropLast_append_getLast hnil
  rw [← hsplit, List.mem_append, List.mem_singleton, hlast] at hx
  exact hx.resolve_right hne

theorem WF_popAndDelete {V : Type} (ps other : List Nat) (m : CacheMap V)
    (hz : ps.getLast? ≠ some 0) (hn : (mapKeys m).Nodup)
    (hk : ∀ k ∈ mapKeys m, k ∈ ps ∨ k ∈ other) :
    (mapKeys (popAndDelete ps m).2).Nodup ∧
      ∀ k ∈ mapKeys (popAndDelete ps m).2, k ∈ (popAndDelete ps m).1 ∨ k ∈ other := by
  unfold popAndDelete
  cases hl : ps.getLast? with
  | none => exact ⟨hn, hk⟩
  | some x =>
    have hx : x ≠ 0 := by
      intro h0
      rw [hl, h0] at hz
      exact hz rfl
    simp only [if_pos hx]
    refine ⟨nodup_mapKeys_mapDelete m x hn, ?_⟩
    intro k hmem
    rw [mem_mapKeys_mapDelete] at hmem
    rcases hk k hmem.1 with hp | ho
    · exact Or.inl (mem_dropLast_of_ne_getLast hl hp hmem.2)
    · exact Or.inr ho

theorem WF_cachePop {V : Type} (c : Cache V) (direction : String) (id : Nat) (value : V)
    (h : c.WF) (hz : (popStackOf c direction).getLast? ≠ some 0) :
    (cachePop c direction id value).WF := by
  have hn := nodup_mapKeys_mapSet c.cacheMapping id value h.1
  by_cases hd : direction = "forward"
  · subst hd
    simp only [popStackOf, if_true] at hz
    have hk : ∀ k ∈ mapKeys (mapSet c.cacheMapping id value),
        k ∈ c.cacheForwardStack ∨ k ∈ c.cacheBackStack ++ [id] := by
      intro k hmem
      rw [mem_mapKeys_mapSet] at hmem
      rcases hmem with rfl | hmem
      · exact Or.inr (by simp)
      · rcases h.2 k hmem with hb | hf
        · exact Or.inr (List.mem_append_left _ hb)
        · exact Or.inl hf
    obtain ⟨w1, w2⟩ := WF_popAndDelete c.cacheForwardStack (c.cacheBackStack ++ [id]) _ hz hn hk
    refine ⟨by simpa [cachePop] using w1, ?_⟩
    intro k hmem
    have := w2 k (by simpa [cachePop] using hmem)
    simpa [cachePop, or_comm] using this
  · simp only [popStackOf, if_neg hd] at hz
    have hk : ∀ k ∈ mapKeys (mapSet c.cacheMapping id value),
        k ∈ c.cacheBackStack ∨ k ∈ c.cacheForwardStack ++ [id] := by
      intro k hmem
      rw [mem_mapKeys_mapSet] at hmem
      rcases hmem with rfl | hmem
      · exact Or.inr (by simp)
      · rcases h.2 k hmem with hb | hf
        · exact Or.inl hb
        · exact Or.inr (List.mem_append_left _ hf)
    obtain ⟨w1, w2⟩ := WF_popAndDelete c.cacheBackStack (c.cacheForwardStack ++ [id]) _ hz hn hk
    refine ⟨by simpa [cachePop, hd] using w1, ?_⟩
    intro k hmem
    have := w2 k (by simpa [cachePop, hd] using hmem)
    simpa [cachePop, hd] using this

theorem NoZero_cachePush {V : Type} (maxCacheLength : Nat) (c : Cache V) (id : Nat) (value : V)
    (h : c.NoZero) (hid : id ≠ 0) : (cachePush maxCacheLength c id value).NoZero := by
  rw [cachePush_eq]
  refine ⟨?_, by simp⟩
  intro hmem
  have hmem2 := List.mem_of_mem_drop hmem
  rw [List.mem_append, List.mem_singleton] at hmem2
  rcases hmem2 with hb | h0
  · exact h.1 hb
  · exact hid h0.symm

theorem NoZero_cachePop {V : Type} (c : Cache V) (direction : String) (id : Nat) (value : V)
    (h : c.NoZero) (hid : id ≠ 0) : (cachePop c direction id value).NoZero := by
  by_cases hd : direction = "forward"
  · subst hd
    obtain ⟨h1, h2⟩ := cachePop_forward_stacks c id value
    refine ⟨?_, ?_⟩
    · rw [h2, List.mem_append, List.mem_singleton]
      rintro (hb | h0)
      · exact h.1 hb
      · exact hid h0.symm
    · rw [h1]
      exact fun hmem => h.2 (mem_of_mem_dropLast hmem)
  · obtain ⟨h1, h2⟩ := cachePop_other_stacks c direction id value hd
    refine ⟨?_, ?_⟩
    · rw [h2]
      exact fun hmem => h.1 (mem_of_mem_dropLast hmem)
    · rw [h1, List.mem_append, List.mem_singleton]
      rintro (hf | h0)
      · exact h.2 hf
      · exact hid h0.symm

theorem NoZero_popStackOf {V : Type} (c : Cache V) (direction : String) (h : c.NoZero) :
    (popStackOf c direction).getLast? ≠ some 0 := by
  intro hl
  have hmem := List.mem_of_getLast?_eq_some hl
  unfold popStackOf at hmem
  by_cases hd : direction = "forward"
  · rw [if_pos hd] at hmem
    exact h.2 hmem
  · rw [if_neg hd] at hmem
    exact h.1 hmem

theorem WF_runOps {V : Type} (maxCacheLength : Nat) (ops : List (CacheOp V)) (c : Cache V)
    (hwf : c.WF) (hnz : c.NoZero) (hids : ∀ op ∈ ops, op.id ≠ 0) :
    (runOps maxCacheLength c ops).WF := by
  induction ops generalizing c with
  | nil => exact hwf
  | cons op rest ih =>
    have hop : op.id ≠ 0 := hids op (List.mem_cons_self _ _)
    have hrest : ∀ o ∈ rest, o.id ≠ 0 := fun o ho => hids o (List.mem_cons_of_mem _ ho)
    cases op with
    | push id value =>
      exact ih (cachePush maxCacheLength c id value) (WF_cachePush maxCacheLength c id value hwf)
        (NoZero_cachePush maxCacheLength c id value hnz hop) hrest
    | pop direction id value =>
      exact ih (cachePop c direction id value)
        (WF_cachePop c direction id value hwf (NoZero_popStackOf c direction hnz))
        (NoZero_cachePop c direction id value hnz hop) hrest

/-- C4, as stated, fails: after `cachePop('back', 0, "A")` and
`cachePop('forward', 1, "B")` on the empty cache, `cacheMapping` holds the two
entries 0 and 1 while the stacks hold the single id 1. -/
theorem mapping_exceeds_stacks_with_zero :
    ¬ ((runOps 20 (Cache.empty : Cache String)
          [CacheOp.pop "back" 0 "A", CacheOp.pop "forward" 1 "B"]).cacheMapping.length ≤
        (runOps 20 (Cache.empty : Cache String)
          [CacheOp.pop "back" 0 "A", CacheOp.pop "forward" 1 "B"]).cacheBackStack.length +
        (runOps 20 (Cache.empty : Cache String)
          [CacheOp.pop "back" 0 "A", CacheOp.pop "forward" 1 "B"]).cacheForwardStack.length) := by
  decide

/-- C4, amended: for every sequence of `cachePush` and `cachePop` calls starting
from the empty cache whose ids are all different from 0 (repeated ids allowed),
after the calls `cacheMapping` lists each key once and its number of entries is
at most `cacheBackStack.length + cacheForwardStack.length`. -/
theorem mapping_size_le_stacks {V : Type} (maxCacheLength : Nat) (ops : List (CacheOp V))
    (hids : ∀ op ∈ ops, op.id ≠ 0) :
    (mapKeys (runOps maxCacheLength Cache.empty ops).cacheMapping).Nodup ∧
      (runOps maxCacheLength Cache.empty ops).cacheMapping.length ≤
        (runOps maxCacheLength Cache.empty ops).cacheBackStack.length +
          (runOps maxCacheLength Cache.empty ops).cacheForwardStack.length := by
  have hwf := WF_runOps maxCacheLength ops Cache.empty WF_empty
    ⟨by simp [Cache.empty], by simp [Cache.empty]⟩ hids
  exact ⟨hwf.1, WF_length_le _ hwf⟩

/-- Witness of `mapping_size_le_stacks`: a visit of 5, a push of 5 and a forward
pop of 7 leave one entry and two stacked ids. -/
theorem mapping_size_le_stacks_witness :
    (∀ op ∈ [CacheOp.pop "back" 5 "A", CacheOp.push 5 "B", CacheOp.pop "forward" 7 "C"],
        op.id ≠ 0) ∧
      (runOps 20 (Cache.empty : Cache String)
        [CacheOp.pop "back" 5 "A", CacheOp.push 5 "B", CacheOp.pop "forward" 7 "C"]).cacheMapping.length
        ≤ 2 :=
  ⟨by decide,
    le_trans (mapping_size_le_stacks 20
      [CacheOp.pop "back" 5 "A", CacheOp.push 5 "B", CacheOp.pop "forward" 7 "C"]
      (by decide)).2 (by decide)⟩

/-- C5, as stated, fails: with `maxCacheLength` 1, two `cachePop('back', ..)`
calls on the empty cache leave two ids on `cacheForwardStack`, and a
`cachePush` followed by a `cachePop('forward', ..)` leaves two ids on
`cacheBackStack`. -/
theorem stacks_exceed_maxCacheLength :
    ¬ ((runOps 1 (Cache.empty : Cache String)
        [CacheOp.pop "back" 1 "A", CacheOp.pop "back" 2 "B"]).cacheForwardStack.length ≤ 1) ∧
      ¬ ((runOps 1 (Cache.empty : Cache String)
        [CacheOp.push 1 "A", CacheOp.pop "forward" 2 "B"]).cacheBackStack.length ≤ 1) := by
  decide

/-- C5, amended: only `cachePush` trims. For every sequence of `cachePush` and
`cachePop` calls starting from the empty cache, after the calls the two stacks
together hold at most `maxCacheLength + k` ids, where `k` is the number of
`cachePop` calls made since the last `cachePush` (since the start when there
was none); so each stack is within `maxCacheLength` right after a `cachePush`
and can exceed it by one more id with every `cachePop` that follows. -/
theorem stacks_le_max_plus_pops {V : Type} (maxCacheLength : Nat) (ops : List (CacheOp V)) :
    (runOps maxCacheLength Cache.empty ops).cacheBackStack.length +
        (runOps maxCacheLength Cache.empty ops).cacheForwardStack.length ≤
      maxCacheLength + popsSinceLastPush 0 ops :=
  runOps_total_length maxCacheLength ops Cache.empty 0 (by simp [Cache.empty])

/-! ## Claims about state ids -/

/-- C6 at its failing input: two successive `uniqueId()` calls that both read
the clock at 1000 (the second reading is not earlier than the first) both
return 1000, so the second id is not strictly greater than the first and the
two states share their id. -/
theorem uniqueId_same_millisecond :
    (1000 : Nat) ≤ 1000 ∧ uniqueId 1000 = 1000 ∧ ¬ (uniqueId 1000 < uniqueId 1000) := by
  decide

/-! ## Claims about the callbacks of a request -/

/-- C8: for every request whose type is not `GET` and every configured timeout,
`beforeSend` leaves `settings.timeout` at 0 and schedules no timeout timer, so
that when the timeout window passes nothing runs: neither `pjax:timeout` is
fired nor `xhr.abort('timeout')` called. -/
theorem beforeSend_no_timeout_for_non_GET {J : Type} (dom : Dom J) (prevented : String → Bool)
    (selector : String) (page : Page J) (options : Options J) (settings : AjaxSettings)
    (htype : settings.type ≠ "GET") :
    (beforeSend dom prevented selector page options settings).settings.timeout = 0 ∧
      (beforeSend dom prevented selector page options settings).timeoutTimer = none ∧
      ∀ later : String → Bool,
        timerElapsed later (beforeSend dom prevented selector page options settings) =
          (beforeSend dom prevented selector page options settings).page := by
  have hsent : (beforeSend dom prevented selector page options settings).settings.timeout = 0 ∧
      (beforeSend dom prevented selector page options settings).timeoutTimer = none := by
    unfold beforeSend
    simp only [if_pos htype]
    by_cases hp : prevented "pjax:beforeSend" = true
    · simp [hp]
    · simp [hp]
  refine ⟨hsent.1, hsent.2, ?_⟩
  intro later
  unfold timerElapsed
  rw [hsent.2]

/-- Witness of `beforeSend_no_timeout_for_non_GET`: a form POST with the default
timeout of 3000 ms. -/
theorem beforeSend_no_timeout_for_non_GET_witness :
    ("POST" : String) ≠ "GET" ∧
      (beforeSend textDom (fun _ => false) "#main" samplePage (sampleOptions "POST")
        { type := "POST", timeout := 3000, url := "/b?_pjax=%23main" }).timeoutTimer = none :=
  ⟨by decide,
    (beforeSend_no_timeout_for_non_GET textDom (fun _ => false) "#main" samplePage
      (sampleOptions "POST") { type := "POST", timeout := 3000, url := "/b?_pjax=%23main" }
      (by decide)).2.1⟩

theorem extractContainer_empty_ok {J : Type} (dom : Dom J) (xhr : Xhr) (options : Options J) :
    ∃ container options1, extractContainer dom "" xhr options = .ok (container, options1) ∧
      container.url =
        stripPjaxParam ((jsOr xhr.pjaxUrl (some options.requestUrl)).getD options.requestUrl) := by
  have hparse : parseResponse dom "" = .ok (none, dom.parse "", dom.parse "") := by
    unfold parseResponse
    have ht : testHtml "".data = false := by decide
    simp [ht]
  unfold extractContainer
  simp only [hparse]
  by_cases hlen : dom.length (dom.parse "") = 0
  · simp only [if_pos hlen]
    exact ⟨_, _, rfl, rfl⟩
  · simp only [if_neg hlen]
    exact ⟨_, _, rfl, rfl⟩

/-- C9: in the error handler a hard navigation to the extracted url is
performed exactly when `pjax:error` was not vetoed, the request type is `GET`
and `textStatus` is not `abort`; in every case the handler returns, fires
`pjax:error` first, and leaves `pjax.state`, the cache and the containers
unchanged. -/
theorem onError_navigates_iff {J : Type} (dom : Dom J) (prevented : String → Bool) (page : Page J)
    (options : Options J) (xhr : Xhr) (textStatus : String) :
    ∃ page1 options1, onError dom prevented page options xhr textStatus = .ok (page1, options1) ∧
      page1.state = page.state ∧ page1.cache = page.cache ∧
      page1.containers = page.containers ∧
      page1.log = page.log ++ [.trigger "pjax:error"] ++
        (if prevented "pjax:error" = false ∧ options.type = "GET" ∧ textStatus ≠ "abort" then
          [.replaceState none (some "") "#",
            .navigate (stripPjaxParam
              ((jsOr xhr.pjaxUrl (some options.requestUrl)).getD options.requestUrl))]
        else []) := by
  obtain ⟨container, options1, hex, hurl⟩ := extractContainer_empty_ok dom xhr options
  unfold onError
  simp only [hex]
  by_cases hc : prevented "pjax:error" = false ∧ options.type = "GET" ∧ textStatus ≠ "abort"
  · obtain ⟨h1, h2, h3⟩ := hc
    refine ⟨locationReplace (page.emit [.trigger "pjax:error"]) container.url, options1, ?_, ?_⟩
    · simp [h1, h2, h3]
    · simp [locationReplace, Page.emit, h1, h2, h3, hurl]
  · refine ⟨page.emit [.trigger "pjax:error"], options1, ?_, ?_⟩
    · have hcond : (!prevented "pjax:error" && options.type == "GET" && textStatus != "abort")
          = false := by
        by_contra hne
        simp only [Bool.not_eq_false, Bool.and_eq_true, Bool.not_eq_true', beq_iff_eq, bne_iff_ne,
          ne_eq] at hne
        exact hc ⟨hne.1.1, hne.1.2, hne.2⟩
      simp [hcond]
    · simp [Page.emit, hc]

theorem onSuccess_hard_load {J : Type} (dom : Dom J) (now : Nat) (hash selector : String)
    (page : Page J) (options options1 : Options J) (data : String) (xhr : Xhr)
    (container : Container J)
    (hex : extractContainer dom data xhr options = .ok (container, options1))
    (hcond : (truthy options.version = true ∧ truthy xhr.pjaxVersion = true ∧
        options.version ≠ xhr.pjaxVersion) ∨ container.contents = none) :
    onSuccess dom now hash selector page options data xhr =
      .ok (locationReplace page container.url, options1) := by
  unfold onSuccess
  simp only [hex]
  by_cases hv : (truthy options.version && truthy xhr.pjaxVersion &&
      options.version != xhr.pjaxVersion) = true
  · simp only [hv, if_true]
  · rcases hcond with ⟨h1, h2, h3⟩ | hnone
    · exact absurd (by simp [h1, h2, h3]) hv
    · simp only [hv, hnone]
      rfl

theorem onSuccess_empty_body_hard_load {J : Type} (dom : Dom J) (now : Nat)
    (hash selector : String) (page : Page J) (options : Options J) (xhr : Xhr)
    (hempty : dom.length (dom.parse "") = 0) :
    onSuccess dom now hash selector page options "" xhr =
      .ok (locationReplace page
        (stripPjaxParam ((jsOr xhr.pjaxUrl (some options.requestUrl)).getD options.requestUrl)),
        options) := by
  have hparse : parseResponse dom "" = .ok (none, dom.parse "", dom.parse "") := by
    unfold parseResponse
    have ht : testHtml "".data = false := by decide
    simp [ht]
  have hex : extractContainer dom "" xhr options =
      .ok ({ url := stripPjaxParam
                ((jsOr xhr.pjaxUrl (some options.requestUrl)).getD options.requestUrl),
             title := none, contents := none, scripts := none, meta := none }, options) := by
    unfold extractContainer
    simp only [hparse, if_pos hempty]
  exact onSuccess_hard_load dom now hash selector page options options "" xhr _ hex (Or.inr rfl)

/-- C7 at its failing input: for the response body `<html><body>x</body></html>`
(a document without a head element) with the layout version `v2` while the
configured version is `v1`, the success handler throws a TypeError inside
`extractContainer`, before the version comparison; it performs no hard load. -/
theorem onSuccess_throws_without_head {J : Type} (dom : Dom J) (now : Nat)
    (hash selector : String) (page : Page J) (options : Options J) :
    onSuccess dom now hash selector page { options with version := some "v1" }
        "<html><body>x</body></html>"
        { pjaxUrl := none, pjaxVersion := some "v2", pjaxContainer := none } =
      .error (.typeError "Cannot read property 0 of null") := by
  have ht : testHtml "<html><body>x</body></html>".data = true := by decide
  have hm : matchTag "<head".data "</head>".data "<html><body>x</body></html>".data = none := by
    decide
  have hparse : parseResponse dom "<html><body>x</body></html>" =
      .error (.typeError "Cannot read property 0 of null") := by
    unfold parseResponse
    simp only [ht, hm, if_true]
  unfold onSuccess extractContainer
  simp only [hparse]

/-! ## Claims about the popstate handler -/

theorem findContents_setContents {J : Type} (containers : List (String × J)) (selector : String)
    (current contents : J) (h : findContents containers selector = some current) :
    findContents (setContents containers selector contents) selector = some contents := by
  induction containers with
  | nil => simp [findContents] at h
  | cons e rest ih =>
    obtain ⟨sel, c⟩ := e
    by_cases hs : sel = selector
    · simp [setContents, findContents, hs]
    · simp only [findContents, if_neg hs] at h
      simp [setContents, findContents, hs, ih h]

/-- C10: for every popstate whose state has a container selector that resolves
to an element and whose id has an entry in `cacheMapping`, and which is not the
ignored initial pop, `onPjaxPopstate` puts the cached snapshot into the
container, makes the popped state the current `pjax.state`, fires
`pjax:popstate`, `pjax:start` and `pjax:end`, and does not call `pjax()`. -/
theorem onPjaxPopstate_cache_hit {J : Type} (page : Page J) (state : State) (current cached : J)
    (hsel : state.container ≠ "")
    (hinit : ¬ (page.initialPop = true ∧ page.initialURL = state.url))
    (hcont : findContents page.containers state.container = some current)
    (hhit : mapGet page.cache.cacheMapping state.id = some cached) :
    (onPjaxPopstate page (some state)).state = some state ∧
      findContents (onPjaxPopstate page (some state)).containers state.container = some cached ∧
      (onPjaxPopstate page (some state)).containers =
        setContents page.containers state.container cached ∧
      (onPjaxPopstate page (some state)).log =
        page.log ++ [.trigger "pjax:popstate", .trigger "pjax:start", .addHeadMeta state.meta,
          .trigger "pjax:end"] ∧
      pjaxCalls (onPjaxPopstate page (some state)).log = pjaxCalls page.log := by
  have hinit2 : (page.initialPop && page.initialURL == state.url) = false := by
    by_contra hne
    simp only [Bool.not_eq_false, Bool.and_eq_true, beq_iff_eq] at hne
    exact hinit hne
  have hcalls : ∀ (l : List (Effect J)) (m : Option Meta),
      pjaxCalls (l ++ [.trigger "pjax:popstate", .trigger "pjax:start", .addHeadMeta m,
        .trigger "pjax:end"]) = pjaxCalls l := by
    intro l m
    induction l with
    | nil => rfl
    | cons x xs ih => cases x <;> simp [pjaxCalls, ih]
  have hrun : onPjaxPopstate page (some state) =
      { page with
        cache := (match page.state with
          | some cur =>
            cachePop page.cache (if cur.id < state.id then "forward" else "back") cur.id current
          | none => page.cache)
        state := some state
        title := if truthy state.title then state.title.getD page.title else page.title
        containers := setContents page.containers state.container cached
        initialPop := false
        log := page.log ++ [.trigger "pjax:popstate"] ++ [.trigger "pjax:start",
          .addHeadMeta state.meta, .trigger "pjax:end"] } := by
    unfold onPjaxPopstate
    simp only [if_neg hsel, hinit2, hcont, hhit]
    rfl
  rw [hrun]
  refine ⟨rfl, findContents_setContents _ _ current cached hcont, rfl, ?_, ?_⟩
  · simp
  · simpa using hcalls page.log state.meta

/-- Witness of `onPjaxPopstate_cache_hit`: the sample page, at state 100, pops
back to the state 50 whose snapshot "cached" is in the history cache. -/
theorem onPjaxPopstate_cache_hit_witness :
    (sampleState 50).container ≠ "" ∧
      findContents
        (onPjaxPopstate
          { samplePage with cache := cachePush 20 Cache.empty 50 "cached" }
          (some (sampleState 50))).containers "#main" = some "cached" ∧
      (onPjaxPopstate
          { samplePage with cache := cachePush 20 Cache.empty 50 "cached" }
          (some (sampleState 50))).state = some (sampleState 50) :=
  ⟨by decide,
    (onPjaxPopstate_cache_hit { samplePage with cache := cachePush 20 Cache.empty 50 "cached" }
      (sampleState 50) "old" "cached" (by decide) (by decide) (by decide) (by decide)).2.1,
    (onPjaxPopstate_cache_hit { samplePage with cache := cachePush 20 Cache.empty 50 "cached" }
      (sampleState 50) "old" "cached" (by decide) (by decide) (by decide) (by decide)).1⟩

/-! ## Claims about the canonical url -/

theorem parseResponse_without_head {J : Type} (dom : Dom J) :
    parseResponse dom "<html><body>x</body></html>" =
      .error (.typeError "Cannot read property 0 of null") := by
  have ht : testHtml "<html><body>x</body></html>".data = true := by decide
  have hm : matchTag "<head".data "</head>".data "<html><body>x</body></html>".data = none := by
    decide
  unfold parseResponse
  simp only [ht, hm, if_true]

theorem extractContainer_url {J : Type} (dom : Dom J) (data : String) (xhr : Xhr)
    (options options1 : Options J) (container : Container J)
    (hex : extractContainer dom data xhr options = .ok (container, options1)) :
    container.url =
      stripPjaxParam ((jsOr xhr.pjaxUrl (some options.requestUrl)).getD options.requestUrl) := by
  unfold extractContainer at hex
  cases hp : parseResponse dom data with
  | error err => simp [hp] at hex
  | ok parsed =>
    obtain ⟨head, body, html⟩ := parsed
    simp only [hp] at hex
    by_cases hlen : dom.length body = 0
    · simp only [if_pos hlen, Except.ok.injEq, Prod.mk.injEq] at hex
      rw [← hex.1]
    · simp only [if_neg hlen, Except.ok.injEq, Prod.mk.injEq] at hex
      rw [← hex.1]

theorem jsOr_header {requestUrl header : String} (h : header ≠ "") :
    (jsOr (some header) (some requestUrl)).getD requestUrl = header := by
  simp [jsOr, truthy, h]

/-- C11 at its failing input: for the response body `<html><body>x</body></html>`
(a document without a head element), whatever the `X-PJAX-URL` header and the
request url are, `extractContainer` throws a TypeError and returns no object,
so no url is resolved. -/
theorem extractContainer_throws_without_head {J : Type} (dom : Dom J) (xhr : Xhr)
    (options : Options J) :
    extractContainer dom "<html><body>x</body></html>" xhr options =
      .error (.typeError "Cannot read property 0 of null") := by
  unfold extractContainer
  simp only [parseResponse_without_head]

/-- C12, as stated, fails: for the request url `/page?foo=bar&_pjax=%23main` and
the response header `X-PJAX-URL: /page`, the state that the success handler
commits has the url `/page`, not `/page?foo=bar`. -/
theorem committed_url_is_header :
    committedUrl (onSuccess textDom 1000 "" "#main" samplePage
        { sampleOptions "GET" with requestUrl := "/page?foo=bar&_pjax=%23main" } "hello"
        { pjaxUrl := some "/page", pjaxVersion := none, pjaxContainer := none }) = some "/page" ∧
      committedUrl (onSuccess textDom 1000 "" "#main" samplePage
        { sampleOptions "GET" with requestUrl := "/page?foo=bar&_pjax=%23main" } "hello"
        { pjaxUrl := some "/page", pjaxVersion := none, pjaxContainer := none }) ≠
        some "/page?foo=bar" := by
  decide

/-- C12, amended: when a request succeeds (the response is extracted with
contents and the layout versions do not clash) and the response carries a
non-empty `X-PJAX-URL` header, the url of the committed `pjax.state` is the
header value with the tracking parameter stripped, whatever the request url
is, with the hash of the requested url appended when there is one; for the
header `/page` it is `/page`. -/
theorem onSuccess_commits_header_url {J : Type} (dom : Dom J) (now : Nat)
    (hash selector : String) (page : Page J) (options options1 : Options J) (data : String)
    (xhr : Xhr) (container : Container J) (contents : J) (header : String)
    (hheader : xhr.pjaxUrl = some header) (hset : header ≠ "")
    (hex : extractContainer dom data xhr options = .ok (container, options1))
    (hcontents : container.contents = some contents)
    (hversion : (truthy options.version && truthy xhr.pjaxVersion &&
      options.version != xhr.pjaxVersion) = false) :
    committedUrl (onSuccess dom now hash selector page options data xhr) =
      some (if hash = "" then stripPjaxParam header
        else dom.hrefWithHash (stripPjaxParam header) hash) := by
  have hurl : container.url = stripPjaxParam header := by
    rw [extractContainer_url dom data xhr options options1 container hex, hheader,
      jsOr_header hset]
  unfold onSuccess
  simp only [hex, hversion, hcontents]
  by_cases hh : hash = ""
  · simp [committedUrl, hh, hurl]
  · simp [committedUrl, hh, hurl]

/-- Witness of `onSuccess_commits_header_url`: the request for
`/page?foo=bar&_pjax=%23main` answered with `X-PJAX-URL: /page`. -/
theorem onSuccess_commits_header_url_witness :
    (("/page" : String) ≠ "") ∧
      committedUrl (onSuccess textDom 1000 "" "#main" samplePage
        { sampleOptions "GET" with requestUrl := "/page?foo=bar&_pjax=%23main" } "hello"
        { pjaxUrl := some "/page", pjaxVersion := none, pjaxContainer := none }) =
        some (if ("" : String) = "" then stripPjaxParam "/page"
          else textDom.hrefWithHash (stripPjaxParam "/page") "") :=
  ⟨by decide,
    onSuccess_commits_header_url textDom 1000 "" "#main" samplePage
      { sampleOptions "GET" with requestUrl := "/page?foo=bar&_pjax=%23main" }
      { sampleOptions "GET" with requestUrl := "/page?foo=bar&_pjax=%23main", html := some "hello" }
      "hello" { pjaxUrl := some "/page", pjaxVersion := none, pjaxContainer := none }
      { url := "/page", title := some "", contents := some "hello", scripts := some "",
        meta := none }
      "hello" "/page" rfl (by decide) (by rfl) rfl (by decide)⟩

/-- C15 at its failing input: for `/page?my_pjax=1&_pjax=%23main`, whose query
holds one parameter named `_pjax` (the last one), `stripPjaxParam` removes the
text `_pjax=1&` out of the parameter `my_pjax=1` and returns
`/page?my_pjax=%23main`; the parameter `_pjax` stays and `my_pjax` is changed.
With `_pjax` first, `/page?_pjax=%23main&my_pjax=1` becomes `/page?my`. -/
theorem stripPjaxParam_damages_my_pjax :
    stripPjaxParam "/page?my_pjax=1&_pjax=%23main" = "/page?my_pjax=%23main" ∧
      stripPjaxParam "/page?my_pjax=1&_pjax=%23main" ≠ "/page?my_pjax=1" ∧
      stripPjaxParam "/page?_pjax=%23main&my_pjax=1" = "/page?my" := by
  decide

/-! ## Claims about the function `pjax` -/

theorem withVeto_other (prevented : String → Bool) (event e : String) (vetoed : Bool)
    (h : e ≠ event) : withVeto prevented event vetoed e = prevented e := by
  simp [withVeto, h]

theorem beforeSend_withVeto_start {J : Type} (dom : Dom J) (prevented : String → Bool)
    (vetoed : Bool) (selector : String) (page : Page J) (options : Options J)
    (settings : AjaxSettings) :
    beforeSend dom (withVeto prevented "pjax:start" vetoed) selector page options settings =
      beforeSend dom prevented selector page options settings := by
  unfold beforeSend
  rw [withVeto_other prevented "pjax:start" "pjax:beforeSend" vetoed (by decide)]

theorem onError_withVeto_start {J : Type} (dom : Dom J) (prevented : String → Bool)
    (vetoed : Bool) (page : Page J) (options : Options J) (xhr : Xhr) (textStatus : String) :
    onError dom (withVeto prevented "pjax:start" vetoed) page options xhr textStatus =
      onError dom prevented page options xhr textStatus := by
  unfold onError
  rw [withVeto_other prevented "pjax:start" "pjax:error" vetoed (by decide)]

theorem cancelPending_withVeto_start {J : Type} (dom : Dom J) (prevented : String → Bool)
    (vetoed : Bool) (page : Page J) (pending : Option (Request J)) :
    cancelPending dom (withVeto prevented "pjax:start" vetoed) page pending =
      cancelPending dom prevented page pending := by
  cases pending with
  | none => rfl
  | some request =>
    unfold cancelPending abortRequest
    simp only [onError_withVeto_start]

/-- C13, as stated, fails: with an observer that prevents the default of
`pjax:start`, `pjax` on the sample page still transmits the request, pushes the
history entry `/b` and adds the snapshot of the container to the history cache
under the id 100; `pjax:start` is fired after all of that. -/
theorem pjax_start_veto_does_not_prevent :
    sessionLog (pjax textDom (fun e => e == "pjax:start") 20 1000 [] "/b?_pjax=%23main" ""
        "#main" { page := samplePage, xhr := none } (sampleOptions "GET")) =
      [.setRequestHeader "X-PJAX" "#main", .setRequestHeader "X-PJAX-Container" "#main",
        .trigger "pjax:beforeSend", .send "/b?_pjax=%23main", .pushState "/b",
        .trigger "pjax:start", .trigger "pjax:send"] ∧
      mapGet (sessionCache (pjax textDom (fun e => e == "pjax:start") 20 1000 []
        "/b?_pjax=%23main" "" "#main" { page := samplePage, xhr := none }
        (sampleOptions "GET"))).cacheMapping 100 = some "old" := by
  decide

/-- C13, amended: `pjax:start` is not cancellable. For every `pjax(options)`
call, what the call does (the request it transmits, the history entry it
pushes, the snapshot it adds to the history cache, the events it fires, the
session it leaves) is the same whether or not an observer prevents the default
of the `pjax:start` event. -/
theorem pjax_ignores_start_veto {J : Type} (dom : Dom J) (prevented : String → Bool)
    (vetoed : Bool) (maxCacheLength now : Nat) (documentMeta : Meta)
    (url hash selector : String) (session : Session J) (options : Options J) :
    pjax dom (withVeto prevented "pjax:start" vetoed) maxCacheLength now documentMeta url hash
        selector session options =
      pjax dom prevented maxCacheLength now documentMeta url hash selector session options := by
  unfold pjax ajax
  simp only [cancelPending_withVeto_start, beforeSend_withVeto_start]

theorem onError_abort {J : Type} (dom : Dom J) (prevented : String → Bool)
    (options : Options J) (xhr : Xhr) :
    ∃ options1, ∀ page : Page J, onError dom prevented page options xhr "abort" =
      .ok (page.emit [.trigger "pjax:error"], options1) := by
  obtain ⟨container, options1, hex, _⟩ := extractContainer_empty_ok dom xhr options
  refine ⟨options1, ?_⟩
  intro page
  unfold onError
  simp [hex]

theorem abortRequest_in_flight {J : Type} (dom : Dom J) (prevented : String → Bool)
    (request : Request J) (hunsettled : request.settled = false) :
    ∃ options1, ∀ page : Page J, abortRequest dom prevented page request =
      .ok ({ page with log := page.log ++ [.abort "abort", .trigger "pjax:error",
              .trigger "pjax:complete", .trigger "pjax:end"] },
           { request with options := options1, timeoutTimer := none, readyState := 0,
                          settled := true }) := by
  obtain ⟨options1, herr⟩ := onError_abort dom prevented request.options
    { pjaxUrl := none, pjaxVersion := none, pjaxContainer := none }
  refine ⟨options1, ?_⟩
  intro page
  unfold abortRequest
  simp only [hunsettled, herr]
  simp [onComplete, Page.emit]

theorem settleRequest_settled {J : Type} (dom : Dom J) (prevented : String → Bool) (now : Nat)
    (page : Page J) (request : Request J) (outcome : Outcome) (h : request.settled = true) :
    settleRequest dom prevented now page request outcome = .ok (page, request) := by
  unfold settleRequest
  simp [h]

theorem initState_of_state {J : Type} (now : Nat) (documentMeta : Meta) (selector : String)
    (page : Page J) (options : Options J) (h : page.state ≠ none) :
    initState now documentMeta selector page options = page := by
  unfold initState
  cases hs : page.state with
  | none => exact absurd hs h
  | some st => rfl

theorem initState_state {J : Type} (now : Nat) (documentMeta : Meta) (selector : String)
    (page : Page J) (options : Options J) :
    (initState now documentMeta selector page options).state ≠ none := by
  unfold initState
  cases hs : page.state with
  | none => simp
  | some st => simp [hs]

theorem initState_containers {J : Type} (now : Nat) (documentMeta : Meta) (selector : String)
    (page : Page J) (options : Options J) :
    (initState now documentMeta selector page options).containers = page.containers := by
  unfold initState
  cases hs : page.state with
  | none => rfl
  | some st => rfl

theorem pjax_after_cancel {J : Type} (dom : Dom J) (prevented : String → Bool)
    (maxCacheLength now : Nat) (documentMeta : Meta) (url hash selector : String)
    (page page1 : Page J) (pending : Option (Request J)) (left : Option (Request J))
    (options : Options J)
    (hcancel : cancelPending dom prevented (initState now documentMeta selector page options)
      pending = .ok (page1, left))
    (hstate : page1.state ≠ none) (hcont : page1.containers = page.containers) :
    pjax dom prevented maxCacheLength now documentMeta url hash selector
        { page := page, xhr := pending } options =
      pjax dom prevented maxCacheLength now documentMeta url hash selector
        { page := page1, xhr := none } options := by
  have hnone : cancelPending dom prevented page1 none = .ok (page1, none) := rfl
  unfold pjax
  simp only [hcont, hcancel, initState_of_state now documentMeta selector page1 options hstate,
    hnone]

/-- C14: when `pjax()` starts navigation B while the request of navigation A is
still in flight (`pjax.xhr.readyState < 4`, its callbacks not yet run), A is
cancelled before B is issued: the call equals the cancellation of A (after the
initialisation of `pjax.state` when there is none) followed by a call with no
request pending. The cancellation settles A and only appends to the log (the
abort and the events fired at that moment); it leaves `pjax.state`, the history
cache and the document as they are. The later completion of A, whether success
or failure, fires no notification and changes neither `pjax.state`, nor the
history cache, nor the document. -/
theorem superseded_request_cancelled {J : Type} (dom : Dom J) (prevented : String → Bool)
    (maxCacheLength now : Nat) (documentMeta : Meta) (url hash selector : String)
    (requestA : Request J) (options : Options J)
    (hflight : requestA.readyState < 4) (hunsettled : requestA.settled = false) :
    ∃ settledA : Request J,
      settledA.settled = true ∧
      (∀ page : Page J,
        cancelPending dom prevented page (some requestA) =
          .ok ({ page with log := page.log ++ [.abort "abort", .trigger "pjax:error",
                  .trigger "pjax:complete", .trigger "pjax:end"] }, some settledA)) ∧
      (∀ page : Page J,
        pjax dom prevented maxCacheLength now documentMeta url hash selector
            { page := page, xhr := some requestA } options =
          pjax dom prevented maxCacheLength now documentMeta url hash selector
            { page :=
                { initState now documentMeta selector page options with
                  log := (initState now documentMeta selector page options).log ++
                    [.abort "abort", .trigger "pjax:error", .trigger "pjax:complete",
                      .trigger "pjax:end"] },
              xhr := none } options) ∧
      (∀ (later : Page J) (vetoes : String → Bool) (clock : Nat) (outcome : Outcome),
        settleRequest dom vetoes clock later settledA outcome = .ok (later, settledA)) := by
  obtain ⟨options1, habort⟩ := abortRequest_in_flight dom prevented requestA hunsettled
  have hcancel : ∀ page : Page J, cancelPending dom prevented page (some requestA) =
      .ok ({ page with log := page.log ++ [.abort "abort", .trigger "pjax:error",
              .trigger "pjax:complete", .trigger "pjax:end"] },
           some { requestA with options := options1, timeoutTimer := none, readyState := 0,
                                settled := true }) := by
    intro page
    unfold cancelPending
    simp only [if_pos hflight, habort]
  refine ⟨_, rfl, hcancel, ?_, ?_⟩
  · intro page
    have hstate1 : ({ initState now documentMeta selector page options with
        log := (initState now documentMeta selector page options).log ++
          [.abort "abort", .trigger "pjax:error", .trigger "pjax:complete",
            .trigger "pjax:end"] } : Page J).state ≠ none :=
      initState_state now documentMeta selector page options
    have hcont1 : ({ initState now documentMeta selector page options with
        log := (initState now documentMeta selector page options).log ++
          [.abort "abort", .trigger "pjax:error", .trigger "pjax:complete",
            .trigger "pjax:end"] } : Page J).containers = page.containers :=
      initState_containers now documentMeta selector page options
    exact pjax_after_cancel dom prevented maxCacheLength now documentMeta url hash selector page _
      (some requestA) _ options (hcancel _) hstate1 hcont1
  · intro later vetoes clock outcome
    exact settleRequest_settled dom vetoes clock later _ outcome rfl

/-- Witness of `superseded_request_cancelled`: the sample page with the request
for `/b` in flight, superseded and then completed with a successful response. -/
theorem superseded_request_cancelled_witness :
    (sampleRequest.readyState < 4 ∧ sampleRequest.settled = false) ∧
      ∃ settledA : Request String,
        settledA.settled = true ∧
        cancelPending textDom (fun _ => false) samplePage (some sampleRequest) =
          .ok ({ samplePage with log := [.abort "abort", .trigger "pjax:error",
                  .trigger "pjax:complete", .trigger "pjax:end"] }, some settledA) ∧
        settleRequest textDom (fun _ => false) 2000 samplePage settledA
          (.success "late" { pjaxUrl := none, pjaxVersion := none, pjaxContainer := none }) =
          .ok (samplePage, settledA) := by
  refine ⟨by decide, ?_⟩
  obtain ⟨settledA, h1, h2, _, h4⟩ :=
    superseded_request_cancelled textDom (fun _ => false) 20 1000 [] "/c?_pjax=%23main" ""
      "#main" sampleRequest (sampleOptions "GET") (by decide) (by decide)
  exact ⟨settledA, h1, h2 samplePage, h4 samplePage (fun _ => false) 2000 _⟩

end Pjax
